import Mathlib

set_option linter.unnecessarySeqFocus false

/-!
Verification of the Hsuanwu distributed actor-learner training pipeline.

This file shallowly embeds the core data structures and operations of the
repository — the vanilla rollout storage with its GAE backward recurrence and
mini-batch generator (`hsuanwu/xploit/storage/vanilla_rollout_storage.py`),
the distributed slot-pool storage and its `sample` (`distributed_storage.py`),
and the actor-worker loop and environment adapter of
`hsuanwu/common/engine/distributed_trainer.py` — and proves or refutes the
spec's claims about them.

Floating-point tensors are modelled over `ℚ` (the recurrences at issue are
exact identities, not rounding properties); tensors indexed by timestep become
functions `ℕ → ℚ`; Python exceptions become `Except`; mutable shared tensors
become explicit state passing, with laziness (a Python generator expression
over shared mutable tensors) modelled as a function of the heap at the moment
of consumption.
-/

namespace Hsuanwu

/-! ### VanillaRolloutStorage.compute_returns_and_advantages

Source (`vanilla_rollout_storage.py`, lines 132-162): a backward loop
`for step in reversed(range(num_steps))` computing

    next_non_terminal = 1 - terminateds[step+1]   (index -1 = num_steps at the end)
    next_values       = values[step+1] if step < num_steps-1 else last_values
    delta             = rewards[step] + discount*next_values*next_non_terminal - values[step]
    gae               = delta + discount*gae_lambda*next_non_terminal*gae
    advantages[step]  = gae

The tensor operations are elementwise along the environment dimension, so we
embed one environment column: `reward value : ℕ → ℚ` etc.  `gaeD` computes the
`gae` accumulator by distance `d` from the end of the loop (`d = 0` is the
initial `gae = 0` before the first iteration), so the value stored in
`advantages[step]` is `gaeD` at `d = numSteps - step`.  The post-loop
standardization `(adv - adv.mean()) / (adv.std() + 1e-5)` is a function of the
raw advantages alone and is modelled separately where a claim needs it.
-/

/-- `next_non_terminal` at loop index `step`: reads `terminateds[step+1]`
(`terminateds[-1]`, i.e. index `numSteps`, at the last loop index). -/
def nextNonTerminal (terminated : ℕ → ℚ) (step : ℕ) : ℚ :=
  1 - terminated (step + 1)

/-- `next_values` at loop index `step`: the bootstrap `last_values` at the
last loop index, `values[step+1]` otherwise. -/
def nextValues (numSteps : ℕ) (value : ℕ → ℚ) (lastValues : ℚ) (step : ℕ) : ℚ :=
  if step = numSteps - 1 then lastValues else value (step + 1)

/-- `delta` at loop index `step`. -/
def gaeDelta (numSteps : ℕ) (discount : ℚ) (reward value terminated : ℕ → ℚ)
    (lastValues : ℚ) (step : ℕ) : ℚ :=
  reward step + discount * nextValues numSteps value lastValues step *
    nextNonTerminal terminated step - value step

/-- The `gae` accumulator after the loop has processed the `d` highest steps
(`d = 0`: initial value `0`; the iteration at loop index `numSteps - d`
produces `gaeD d`). -/
def gaeD (numSteps : ℕ) (discount lam : ℚ) (reward value terminated : ℕ → ℚ)
    (lastValues : ℚ) : ℕ → ℚ
  | 0 => 0
  | d + 1 =>
    gaeDelta numSteps discount reward value terminated lastValues (numSteps - (d + 1)) +
      discount * lam * nextNonTerminal terminated (numSteps - (d + 1)) *
        gaeD numSteps discount lam reward value terminated lastValues d

/-- `advantages[step]` as assigned inside the backward loop (the raw GAE value,
before the post-loop standardization). -/
def advantagesRaw (numSteps : ℕ) (discount lam : ℚ) (reward value terminated : ℕ → ℚ)
    (lastValues : ℚ) (step : ℕ) : ℚ :=
  gaeD numSteps discount lam reward value terminated lastValues (numSteps - step)

/-- `returns[step] = advantages[step] + values[step]` (line 159). -/
def returnsOf (numSteps : ℕ) (discount lam : ℚ) (reward value terminated : ℕ → ℚ)
    (lastValues : ℚ) (step : ℕ) : ℚ :=
  advantagesRaw numSteps discount lam reward value terminated lastValues step + value step

/-! ### VanillaRolloutStorage: buffer layout, `add`, `reset`

Source (`vanilla_rollout_storage.py`): `obs`, `rewards`, `values`, ... have
leading dimension `num_steps`; only `terminateds` and `truncateds` have
`num_steps + 1`.  `add` writes `obs/actions/rewards/log_probs/values` at the
cursor `_global_step` and `terminateds/truncateds` at `_global_step + 1`, then
advances the cursor modulo `num_steps`.  `reset` copies `terminateds[-1]` into
`terminateds[0]` and likewise for `truncateds` — and touches nothing else.
Field contents are abstracted to one type parameter-free value each; we keep
the three fields the claims mention plus the cursor. -/

structure RolloutState where
  obs : ℕ → ℚ          -- leading dimension `num_steps` (indices 0..T-1)
  terminateds : ℕ → ℚ  -- leading dimension `num_steps + 1` (indices 0..T)
  truncateds : ℕ → ℚ
  globalStep : ℕ
deriving Inhabited

/-- One record passed to `VanillaRolloutStorage.add` (the fields the claims
track). -/
structure AddRec where
  obs : ℚ
  terminated : ℚ
  truncated : ℚ
deriving Inhabited

/-- `VanillaRolloutStorage.add` (lines 93-125): write `obs` at the cursor,
`terminateds`/`truncateds` at cursor+1, advance the cursor modulo `numSteps`. -/
def RolloutState.add (numSteps : ℕ) (s : RolloutState) (r : AddRec) : RolloutState :=
  { obs := Function.update s.obs s.globalStep r.obs
    terminateds := Function.update s.terminateds (s.globalStep + 1) r.terminated
    truncateds := Function.update s.truncateds (s.globalStep + 1) r.truncated
    globalStep := (s.globalStep + 1) % numSteps }

/-- `VanillaRolloutStorage.reset` (lines 127-130): copy index `numSteps`
(Python index `-1`) of `terminateds` and `truncateds` into index 0. -/
def RolloutState.reset (numSteps : ℕ) (s : RolloutState) : RolloutState :=
  { s with
    terminateds := Function.update s.terminateds 0 (s.terminateds numSteps)
    truncateds := Function.update s.truncateds 0 (s.truncateds numSteps) }

/-- A full fill cycle: `add` once per record, in order. -/
def RolloutState.addMany (numSteps : ℕ) (s : RolloutState) (rs : List AddRec) :
    RolloutState :=
  rs.foldl (RolloutState.add numSteps) s

/-! ### VanillaRolloutStorage.generator

Source (lines 164-197): `batch_size = num_envs * num_steps`; an `assert`
fires (an `AssertionError` raised to the caller, before any batch is yielded)
unless `batch_size >= num_mini_batch`; then `mini_batch_size =
batch_size // num_mini_batch` and a
`BatchSampler(SubsetRandomSampler(range(batch_size)), mini_batch_size,
drop_last=True)` groups a uniformly random permutation of
`0..batch_size-1` into consecutive groups of exactly `mini_batch_size`,
dropping the final incomplete group.  We take the permutation produced by
`SubsetRandomSampler` as a parameter `perm`; `chunksOf n perm` is the list of
the `perm.length / n` full groups. -/

/-- The groups yielded by `BatchSampler(sampler, n, drop_last=True)` over the
sampler output `l`: group `k` is elements `k*n .. k*n+n-1` of `l`, and the
trailing `l.length % n` elements are dropped. -/
def chunksOf (n : ℕ) (l : List ℕ) : List (List ℕ) :=
  (List.range (l.length / n)).map fun k => ((l.drop (k * n)).take n)

/-- `VanillaRolloutStorage.generator`, at the index level: the assert, the
mini-batch size computation, and the index groups the loop yields (each
yielded batch gathers the storage fields at those flat indices). -/
def generator (numEnvs numSteps numMiniBatch : ℕ) (perm : List ℕ) :
    Except String (List (List ℕ)) :=
  let batchSize := numEnvs * numSteps
  if batchSize ≥ numMiniBatch then
    .ok (chunksOf (batchSize / numMiniBatch) perm)
  else
    .error "PPO requires the number of processes * number of steps to be greater than or equal to the number of PPO mini batches."

/-! ### DistributedStorage.__init__

Source (`distributed_storage.py`, lines 31-73): after storing the scalar
configuration fields, the constructor branches on `action_type`:
`"Discrete"` sets `action_dim = 1`, `"Box"` sets `action_dim =
action_shape[0]` — an indexing that raises `IndexError` on that branch when
`action_shape` is the empty tuple — and any other string raises
`NotImplementedError`.  Only after that check does it build `specs`, whose
`policy_logits` entry reads `action_shape[0]` again (line 64, for either
accepted action type, so an empty `action_shape` raises `IndexError` there
too), and finally run the allocation loop (lines 70-73).  We embed the
constructor as an `Except` over the two Python exception kinds, sequencing
the three stages in source order, so that an `.error` result means the
constructor raised with nothing allocated; the action-type branch is its own
definition so its raises are distinguishable from the later `specs` one. -/

/-- The Python exceptions the constructor can raise. -/
inductive PyError where
  | notImplementedError
  | indexError
deriving Inhabited, DecidableEq, Repr

/-- The field names whose shared buffers the constructor allocates. -/
def storageKeys : List String :=
  ["obs", "reward", "terminated", "truncated", "episode_return",
   "episode_step", "last_action", "policy_logits", "baseline", "action"]

structure DistributedStorageCfg where
  actionDim : ℕ
  policyLogitsDim : ℕ
  -- one entry per (field, storage index): every field buffer allocated
  allocated : List (String × ℕ)
deriving Inhabited, DecidableEq

/-- The `action_type` branch (lines 48-53): `"Discrete"` yields
`action_dim = 1`; `"Box"` reads `action_shape[0]`, which raises `IndexError`
when `action_shape` is empty; any other string raises
`NotImplementedError`. -/
def actionTypeBranch (actionType : String) (actionShape : List ℕ) :
    Except PyError ℕ :=
  match actionType with
  | "Discrete" => .ok 1
  | "Box" =>
    match actionShape with
    | [] => .error .indexError
    | d :: _ => .ok d
  | _ => .error .notImplementedError

/-- The `specs` construction's `action_shape[0]` access for the
`policy_logits` buffer size (line 64): `IndexError` on an empty
`action_shape`. -/
def specsPolicyLogitsDim (actionShape : List ℕ) : Except PyError ℕ :=
  match actionShape with
  | [] => .error .indexError
  | d :: _ => .ok d

/-- `DistributedStorage.__init__`: the `action_type` branch (lines 48-53),
then the `specs` construction (lines 55-68), then the allocation loop
(lines 70-73). -/
def distributedStorageInit (actionType : String) (actionShape : List ℕ)
    (numStorages : ℕ) : Except PyError DistributedStorageCfg := do
  let actionDim ← actionTypeBranch actionType actionShape
  let logitsDim ← specsPolicyLogitsDim actionShape
  .ok ⟨actionDim, logitsDim,
    (List.range numStorages).flatMap fun m => storageKeys.map fun k => (k, m)⟩

/-! ### DistributedStorage.sample

Source (`distributed_storage.py`, lines 75-118), in program order:
1. under a lock, `indices = [full_queue.get() for _ in range(batch_size)]`;
2. `batch = {key: torch.stack([storages[key][i] for i in indices], dim=1) ...}`
   — `torch.stack` allocates a fresh tensor and copies, so the batch holds no
   view into the shared pool;
3. `init_actor_states = (torch.cat(ts, dim=1) for ts in
   zip(*[init_actor_state_storages[i] for i in indices]))` — a GENERATOR
   expression: the `torch.cat` calls run only when the consumer iterates it,
   reading the shared `init_actor_state_storages` tensors at that moment;
4. `for i in indices: free_queue.put(i)`;
5. the batch is moved `.to(device)` and `(batch, init_actor_states)` returned.

We embed the shared pools as heaps `ℕ → α` / `ℕ → β` (slot index to the slot's
whole contents) and each returned component as a function of the heap at the
moment the consumer reads it: the eagerly copied batch ignores that argument
(its value was fixed at step 2), while the lazy generator reads through it. -/

structure SampleResult (α β : Type) where
  /-- The order in which `free_queue.put` re-enqueues the claimed indices
  before the return (step 4). -/
  freePuts : List ℕ
  /-- The returned batch, as consumed under a later heap: `torch.stack`
  copied at step 2, so the result is independent of that heap. -/
  batch : (ℕ → α) → List α
  /-- The returned `init_actor_states` generator, as consumed under a later
  heap: `torch.cat` runs at consumption time and reads the shared tensors
  then. -/
  initStates : (ℕ → β) → List β

/-- `DistributedStorage.sample`, given the indices the `full_queue.get` calls
returned and the shared heaps at call time. -/
def DistributedStorage.sample (indices : List ℕ) (storages : ℕ → α)
    (_initActorStateStorages : ℕ → β) : SampleResult α β :=
  { freePuts := indices
    batch := fun _ => indices.map storages
    initStates := fun heapAtConsumption => indices.map heapAtConsumption }

/-! ### Index queues: the ownership-transfer protocol

Source: `DistributedTrainer.train` seeds `free_queue.put(m)` for
`m in range(num_storages)` (lines 311-312) and finally enqueues one `None`
sentinel per actor (lines 354-355).  Each actor (lines 212-238) blocks on
`free_queue.get()`; a `None` ends its loop, a real index is held while the
slot is filled and then `full_queue.put(idx)` republishes it.  A learner
(`DistributedStorage.sample`) takes `batch_size` indices from `full_queue`
and puts each back on `free_queue`.  We model the two `mp.SimpleQueue`s as
FIFO lists (front = next `get`); `free` carries `Option ℕ` since the sentinel
`None` travels on it; indices held by some worker or learner between a `get`
and the matching `put` form a multiset. -/

structure QState where
  free : List (Option ℕ)
  full : List ℕ
  held : Multiset ℕ
deriving DecidableEq

/-- The queue-level atomic steps of the protocol, straight from the code:
worker `free_queue.get()` on a real index or on the sentinel, worker
`full_queue.put(idx)` of an index it holds, learner `full_queue.get()`, and
learner `free_queue.put(i)` of an index it claimed. -/
inductive QStep : QState → QState → Prop where
  | workerGet (i : ℕ) (rest : List (Option ℕ)) (full : List ℕ) (held : Multiset ℕ) :
      QStep ⟨some i :: rest, full, held⟩ ⟨rest, full, i ::ₘ held⟩
  | workerSentinel (rest : List (Option ℕ)) (full : List ℕ) (held : Multiset ℕ) :
      QStep ⟨none :: rest, full, held⟩ ⟨rest, full, held⟩
  | workerPublish (i : ℕ) (free : List (Option ℕ)) (full : List ℕ) (held : Multiset ℕ) :
      i ∈ held → QStep ⟨free, full, held⟩ ⟨free, full ++ [i], held.erase i⟩
  | learnerGet (i : ℕ) (free : List (Option ℕ)) (rest : List ℕ) (held : Multiset ℕ) :
      QStep ⟨free, i :: rest, held⟩ ⟨free, rest, i ::ₘ held⟩
  | learnerRelease (i : ℕ) (free : List (Option ℕ)) (full : List ℕ) (held : Multiset ℕ) :
      i ∈ held → QStep ⟨free, full, held⟩ ⟨free ++ [some i], full, held.erase i⟩
  | sentinelPut (free : List (Option ℕ)) (full : List ℕ) (held : Multiset ℕ) :
      QStep ⟨free, full, held⟩ ⟨free ++ [none], full, held⟩

/-- The initial state: every slot index `0..S-1` enqueued once onto Free
(lines 311-312), Full empty, nothing held. -/
def initQState (S : ℕ) : QState :=
  ⟨(List.range S).map some, [], 0⟩

/-- States reachable from the initial state by any interleaving of worker and
learner steps. -/
inductive QReachable (S : ℕ) : QState → Prop where
  | init : QReachable S (initQState S)
  | step {s s' : QState} : QReachable S s → QStep s s' → QReachable S s'

/-- How many times index `i` occurs in the union of {Free, Full, held}
(sentinels on Free are not indices and do not count). -/
def idxCount (s : QState) (i : ℕ) : ℕ :=
  (s.free.filterMap id).count i + s.full.count i + s.held.count i

/-! ### Actor worker loop

Source (`DistributedTrainer.act`, lines 202-245).  Before the loop the worker
resets its environment and takes one initial policy decision; in the loop it
dequeues `idx` from Free, exits on `None`, writes the retained
`env_output`/`actor_output` into timestep 0 of slot `idx` and snapshots
`actor_state` into `init_actor_state_storages[idx]`, then for
`t = 0..num_steps-1` takes a policy decision, steps the environment and writes
both outputs at timestep `t+1`, and finally `full_queue.put(idx)`.

The environment/policy dynamics are opaque to the queue-and-buffer logic, so
we quantify over them: the worker's per-iteration in-flight data is a single
register `w : W` (bundling `env_output`, `actor_output` and `actor_state`),
one rollout micro-step is an arbitrary `stepFn : W → W` (the
`get_action` + `env.step` pair), and the record written into the slot at a
timestep is `w` itself (the storages hold exactly the fields of the two
output dicts). -/

/-- The shared trajectory pool for the worker loop: slot index → timestep →
written record. -/
def Pool (W : Type) := ℕ → ℕ → W

/-- Write `w` at `(idx, t)`. -/
def Pool.write (p : Pool W) (idx t : ℕ) (w : W) : Pool W :=
  fun i s => if i = idx ∧ s = t then w else p i s

/-- The rollout loop `for t in range(num_steps)` with `t` counted down as a
fuel argument: the call with fuel `t + 1` performs micro-step number
`numSteps - (t + 1)` (0-based) and writes its output at timestep
`numSteps - t`. -/
def fillGo (stepFn : W → W) (numSteps idx : ℕ) : Pool W → W → ℕ → Pool W × W
  | p, w, 0 => (p, w)
  | p, w, t + 1 =>
    let w' := stepFn w
    fillGo stepFn numSteps idx (p.write idx (numSteps - t) w') w' t

/-- The body of one worker iteration on a real index `idx`: write the retained
register into timestep 0, then run `numSteps` micro-steps, writing the result
of micro-step `t` (0-based) into timestep `t+1`.  Returns the updated pool and
the retained register for the next iteration. -/
def fillSlot (stepFn : W → W) (numSteps : ℕ) (p : Pool W) (w : W) (idx : ℕ) :
    Pool W × W :=
  fillGo stepFn numSteps idx (p.write idx 0 w) w numSteps

/-- The trace of observable worker actions, given the successive values
`free_queue.get()` returns.  On `none` the loop breaks: the sentinel `get` is
the last event and nothing follows.  On `some i` the worker fills slot `i`
and publishes it, then loops. -/
inductive ActorEvent where
  | freeGet (v : Option ℕ)
  | fillWrite (idx : ℕ)
  | fullPut (idx : ℕ)
deriving DecidableEq, Repr

def actTrace : List (Option ℕ) → List ActorEvent
  | [] => []
  | none :: _ => [.freeGet none]
  | some i :: rest => .freeGet (some i) :: .fillWrite i :: .fullPut i :: actTrace rest

/-! ### Environment adapter

Source (`Environment.step`, lines 67-99): increments `episode_step` and adds
the reward to `episode_return` IN PLACE, captures references to both tensors
for the returned dict, and — if the underlying step reported `terminated` or
`truncated` — rebinds the adapter's attributes to fresh zero tensors (the
captured references keep the cumulative values).  We model the adapter state
as the two counters and the underlying env's step result as parameters. -/

structure EpiState where
  episodeReturn : ℚ
  episodeStep : ℤ
deriving DecidableEq

structure EnvFrame where
  reward : ℚ
  terminated : Bool
  truncated : Bool
  episodeReturn : ℚ
  episodeStep : ℤ
deriving DecidableEq

/-- `Environment.step`, given the underlying env step's reward and done flags:
returns the frame dict and the adapter state after the call. -/
def Environment.step (s : EpiState) (reward : ℚ) (terminated truncated : Bool) :
    EnvFrame × EpiState :=
  let newStep := s.episodeStep + 1
  let newReturn := s.episodeReturn + reward
  let frame : EnvFrame :=
    { reward := reward, terminated := terminated, truncated := truncated
      episodeReturn := newReturn, episodeStep := newStep }
  if terminated || truncated then
    (frame, ⟨0, 0⟩)
  else
    (frame, ⟨newReturn, newStep⟩)

/-! ## Theorems -/

/-! ### C4: GAE boundary -/

/-- With `terminateds[numSteps] = 1`, the `delta` of any loop step does not
depend on `last_values`: at the boundary step `numSteps - 1` the factor
`next_non_terminal = 1 - terminateds[numSteps] = 0` zeroes the bootstrap
term, and every other step reads `values[step+1]` instead. -/
lemma gaeDelta_bootstrap_indep (numSteps : ℕ) (discount : ℚ)
    (reward value terminated : ℕ → ℚ) (hT : 0 < numSteps)
    (hterm : terminated numSteps = 1) (lv lv' : ℚ) (step : ℕ) :
    gaeDelta numSteps discount reward value terminated lv step =
      gaeDelta numSteps discount reward value terminated lv' step := by
  unfold gaeDelta nextValues nextNonTerminal
  by_cases h : step = numSteps - 1
  · subst h
    have hs : numSteps - 1 + 1 = numSteps := Nat.succ_pred_eq_of_pos hT
    rw [hs, hterm]
    simp
  · simp [h]

/-- The `gae` accumulator at every loop distance is independent of
`last_values` when `terminateds[numSteps] = 1`. -/
lemma gaeD_bootstrap_indep (numSteps : ℕ) (discount lam : ℚ)
    (reward value terminated : ℕ → ℚ) (hT : 0 < numSteps)
    (hterm : terminated numSteps = 1) (lv lv' : ℚ) (d : ℕ) :
    gaeD numSteps discount lam reward value terminated lv d =
      gaeD numSteps discount lam reward value terminated lv' d := by
  induction d with
  | zero => rfl
  | succ d ih =>
    unfold gaeD
    rw [ih, gaeDelta_bootstrap_indep numSteps discount reward value terminated
      hT hterm lv lv']

/-- C4.  GAE boundary: with `terminateds[T] = 1`, (a) every raw advantage
`advantages[step]` assigned in the backward loop of
`compute_returns_and_advantages` is independent of the bootstrap argument
`last_values` — hence so are the stored `returns = advantages + values` and
the standardized advantages, both functions of the raw advantages and
`values` alone; and (b) with `discount = 0.99`, `gae_lambda = 0.95`,
`reward[T-1] = 1.0`, `value[T-1] = 0.5`, the raw `advantage[T-1]` equals
`1.0 - 0.5 = 0.5` whatever `last_values` is. -/
theorem gae_boundary_bootstrap_independent (numSteps : ℕ) (discount lam : ℚ)
    (reward value terminated : ℕ → ℚ) (hT : 0 < numSteps)
    (hterm : terminated numSteps = 1) (lv lv' : ℚ) :
    (∀ step, advantagesRaw numSteps discount lam reward value terminated lv step =
      advantagesRaw numSteps discount lam reward value terminated lv' step) ∧
    (reward (numSteps - 1) = 1 → value (numSteps - 1) = 1/2 →
      advantagesRaw numSteps (99/100) (19/20) reward value terminated lv
        (numSteps - 1) = 1/2) := by
  constructor
  · intro step
    unfold advantagesRaw
    exact gaeD_bootstrap_indep numSteps discount lam reward value terminated
      hT hterm lv lv' _
  · intro hr hv
    have hs : numSteps - (numSteps - 1) = 1 := by omega
    have hs' : numSteps - 1 + 1 = numSteps := Nat.succ_pred_eq_of_pos hT
    unfold advantagesRaw
    rw [hs]
    unfold gaeD gaeD gaeDelta nextValues nextNonTerminal
    rw [hs', hterm]
    simp [hr, hv]
    ring

/-- Closed witness for C4 at `T = 1`, `rewards = [1]`, `values = [1/2]`,
`terminateds[1] = 1`, bootstraps `100` and `0`. -/
theorem gae_boundary_bootstrap_independent_witness :
    advantagesRaw 1 (99/100) (19/20) (fun _ => 1) (fun _ => 1/2) (fun _ => 1)
        100 0 =
      advantagesRaw 1 (99/100) (19/20) (fun _ => 1) (fun _ => 1/2) (fun _ => 1)
        0 0 ∧
    advantagesRaw 1 (99/100) (19/20) (fun _ => 1) (fun _ => 1/2) (fun _ => 1)
        100 0 = 1/2 := by
  have h := gae_boundary_bootstrap_independent 1 (99/100) (19/20)
    (fun _ => 1) (fun _ => 1/2) (fun _ => 1) (by decide) rfl 100 0
  exact ⟨h.1 0, h.2 rfl rfl⟩

/-! ### C9: generator precondition -/

/-- C9.  `VanillaRolloutStorage.generator(num_mini_batch)` fails (the
`assert` on lines 175-180 raises, before any batch is yielded) exactly when
`num_envs * num_steps < num_mini_batch`; when `num_envs * num_steps ≥
num_mini_batch` it yields its batches — at least one — without raising. -/
theorem generator_raises_iff (numEnvs numSteps numMiniBatch : ℕ) (perm : List ℕ)
    (hpos : 0 < numMiniBatch) (hlen : perm.length = numEnvs * numSteps) :
    ((∃ e, generator numEnvs numSteps numMiniBatch perm = .error e) ↔
      numEnvs * numSteps < numMiniBatch) ∧
    (numMiniBatch ≤ numEnvs * numSteps →
      ∃ bs, generator numEnvs numSteps numMiniBatch perm = .ok bs ∧ bs ≠ []) := by
  constructor
  · unfold generator
    by_cases h : numEnvs * numSteps ≥ numMiniBatch
    · simp [h]
    · simp [h]
      omega
  · intro hle
    refine ⟨chunksOf (numEnvs * numSteps / numMiniBatch) perm, ?_, ?_⟩
    · unfold generator
      simp [hle]
    · have h1 : 0 < numEnvs * numSteps / numMiniBatch :=
        Nat.div_pos hle hpos
      have h2 : numEnvs * numSteps / numMiniBatch ≤ numEnvs * numSteps :=
        Nat.div_le_self _ _
    -- the sampler yields `perm.length / mini_batch_size ≥ 1` groups
      have h3 : 0 < perm.length / (numEnvs * numSteps / numMiniBatch) := by
        rw [hlen]
        exact Nat.div_pos h2 h1
      unfold chunksOf
      intro hc
      rw [List.map_eq_nil_iff, List.range_eq_nil] at hc
      omega

/-- Closed witness for C9: one env, five steps, two mini-batches (allowed)
and seven mini-batches (refused). -/
theorem generator_raises_iff_witness :
    (∃ bs, generator 1 5 2 (List.range 5) = .ok bs ∧ bs ≠ []) ∧
    (∃ e, generator 1 5 7 (List.range 5) = .error e) := by
  constructor
  · exact (generator_raises_iff 1 5 2 (List.range 5) (by decide) (by decide)).2
      (by decide)
  · exact (generator_raises_iff 1 5 7 (List.range 5) (by decide) (by decide)).1.mpr
      (by decide)

/-! ### C5: batch completeness -/

/-- The concatenation of the `BatchSampler`'s groups is the first
`(l.length / n) * n` elements of the sampler's output: `drop_last=True`
discards the trailing `l.length % n` elements. -/
lemma chunksOf_flatten_aux (n : ℕ) (l : List ℕ) (q : ℕ) :
    ((List.range q).map fun k => ((l.drop (k * n)).take n)).flatten =
      l.take (q * n) := by
  induction q with
  | zero => simp
  | succ q ih =>
    rw [List.range_succ, List.map_append, List.flatten_append, ih]
    simp [Nat.succ_mul, List.take_add]

lemma chunksOf_flatten (n : ℕ) (l : List ℕ) :
    (chunksOf n l).flatten = l.take (l.length / n * n) :=
  chunksOf_flatten_aux n l _

/-- C5 counterexample.  With `num_envs * num_steps = 5` and
`num_mini_batch = 2` (so `1 ≤ 2 ≤ 5`), `mini_batch_size = 5 // 2 = 2` and
`drop_last=True` makes the generator yield only two mini-batches of two
indices: transition 4 of the sampler's order is omitted, so the yielded
mini-batches do not cover all `num_envs * num_steps` transitions. -/
theorem batch_completeness_counterexample :
    generator 1 5 2 [0, 1, 2, 3, 4] = .ok [[0, 1], [2, 3]] ∧
    ¬ (∀ i < 1 * 5, ∃ b ∈ [[0, 1], [2, 3]], i ∈ b) := by
  constructor
  · rfl
  · decide

/-- C5 as amended.  One `generator` call yields mini-batches that are
pairwise disjoint with no transition repeated; their concatenation is the
first `(N / mbs) * mbs` indices of the random order (`N = num_envs *
num_steps`, `mbs = N / num_mini_batch`), so they cover all `N` transitions
exactly once iff `mbs` divides `N` (in particular whenever `num_mini_batch`
divides `N`); otherwise the last `N % mbs` sampled indices are omitted. -/
theorem batch_completeness_amended (numEnvs numSteps numMiniBatch : ℕ)
    (perm : List ℕ) (_hpos : 0 < numMiniBatch)
    (hle : numMiniBatch ≤ numEnvs * numSteps)
    (hperm : perm.Perm (List.range (numEnvs * numSteps))) :
    ∃ bs, generator numEnvs numSteps numMiniBatch perm = .ok bs ∧
      bs.flatten.Nodup ∧
      bs.flatten = perm.take
        (numEnvs * numSteps / (numEnvs * numSteps / numMiniBatch) *
          (numEnvs * numSteps / numMiniBatch)) ∧
      ((numEnvs * numSteps / numMiniBatch) ∣ numEnvs * numSteps →
        bs.flatten.Perm (List.range (numEnvs * numSteps))) := by
  have hlen : perm.length = numEnvs * numSteps := by
    rw [hperm.length_eq, List.length_range]
  have hnodup : perm.Nodup := hperm.nodup_iff.mpr (List.nodup_range _)
  refine ⟨chunksOf (numEnvs * numSteps / numMiniBatch) perm, ?_, ?_, ?_, ?_⟩
  · unfold generator
    simp [hle]
  · rw [chunksOf_flatten]
    exact hnodup.sublist (List.take_sublist ..)
  · rw [chunksOf_flatten, hlen]
  · intro hdvd
    rw [chunksOf_flatten, hlen, Nat.div_mul_cancel hdvd,
      List.take_of_length_le (le_of_eq hlen)]
    exact hperm

/-- Closed witness for the amended C5: three envs, two steps, three
mini-batches of size two partition all six transitions. -/
theorem batch_completeness_amended_witness :
    ∃ bs, generator 3 2 3 [5, 0, 3, 1, 4, 2] = .ok bs ∧
      bs.flatten.Nodup ∧
      bs.flatten = [5, 0, 3, 1, 4, 2].take (3 * 2 / (3 * 2 / 3) * (3 * 2 / 3)) ∧
      (3 * 2 / 3 ∣ 3 * 2 → bs.flatten.Perm (List.range (3 * 2))) :=
  batch_completeness_amended 3 2 3 [5, 0, 3, 1, 4, 2] (by decide) (by decide)
    (by decide)

/-! ### C7: rollout buffer overlap invariant -/

/-- C7 counterexample.  `VanillaRolloutStorage.reset` copies only
`terminateds` and `truncateds` into frame 0 — `obs` is untouched (indeed
`obs` has leading dimension `num_steps`, frames `0..T-1` only).  Concretely
with `T = 2`: start from the zeroed buffer, `add` obs `10` then obs `20`
(a full cycle), `reset`; frame 0 of `obs` is `10`, which equals neither the
last written obs frame (`obs[T-1] = 20`) nor the literal index `T` (`0`
junk, never written) while the last written obs was `20` — so the claimed
equality of frame 0 with the last frame fails for `obs` under either
reading of "frame T". -/
theorem rollout_overlap_counterexample :
    (((RolloutState.addMany 2 ⟨fun _ => 0, fun _ => 0, fun _ => 0, 0⟩
        [⟨10, 1, 0⟩, ⟨20, 1, 1⟩]).reset 2).obs 0 = 10) ∧
    ¬ (((RolloutState.addMany 2 ⟨fun _ => 0, fun _ => 0, fun _ => 0, 0⟩
        [⟨10, 1, 0⟩, ⟨20, 1, 1⟩]).reset 2).obs 0 =
       ((RolloutState.addMany 2 ⟨fun _ => 0, fun _ => 0, fun _ => 0, 0⟩
        [⟨10, 1, 0⟩, ⟨20, 1, 1⟩]).reset 2).obs (2 - 1)) ∧
    ¬ (((RolloutState.addMany 2 ⟨fun _ => 0, fun _ => 0, fun _ => 0, 0⟩
        [⟨10, 1, 0⟩, ⟨20, 1, 1⟩]).reset 2).obs 0 = 20) := by
  refine ⟨?_, ?_, ?_⟩ <;>
    simp [RolloutState.addMany, RolloutState.add, RolloutState.reset,
      Function.update]

/-- C7 as amended.  After a fill cycle of `T` `add` calls followed by
`reset()`, frame 0 of `terminateds` and of `truncateds` equals frame `T` of
the just-completed cycle; `obs` carries no overlap frame (it has frames
`0..T-1` and `reset` does not copy it). -/
theorem rollout_overlap_amended (numSteps : ℕ) (s : RolloutState)
    (rs : List AddRec) (_hlen : rs.length = numSteps) :
    ((s.addMany numSteps rs).reset numSteps).terminateds 0 =
      (s.addMany numSteps rs).terminateds numSteps ∧
    ((s.addMany numSteps rs).reset numSteps).truncateds 0 =
      (s.addMany numSteps rs).truncateds numSteps := by
  constructor <;> simp [RolloutState.reset, Function.update]

/-- Closed witness for the amended C7 at `T = 2` with a concrete cycle. -/
theorem rollout_overlap_amended_witness :
    ((RolloutState.addMany 2 ⟨fun _ => 0, fun _ => 0, fun _ => 0, 0⟩
        [⟨10, 1, 0⟩, ⟨20, 1, 1⟩]).reset 2).terminateds 0 =
      (RolloutState.addMany 2 ⟨fun _ => 0, fun _ => 0, fun _ => 0, 0⟩
        [⟨10, 1, 0⟩, ⟨20, 1, 1⟩]).terminateds 2 ∧
    ((RolloutState.addMany 2 ⟨fun _ => 0, fun _ => 0, fun _ => 0, 0⟩
        [⟨10, 1, 0⟩, ⟨20, 1, 1⟩]).reset 2).truncateds 0 =
      (RolloutState.addMany 2 ⟨fun _ => 0, fun _ => 0, fun _ => 0, 0⟩
        [⟨10, 1, 0⟩, ⟨20, 1, 1⟩]).truncateds 2 :=
  rollout_overlap_amended 2 ⟨fun _ => 0, fun _ => 0, fun _ => 0, 0⟩
    [⟨10, 1, 0⟩, ⟨20, 1, 1⟩] (by decide)

/-! ### C10: DistributedStorage action-type check -/

/-- The allocation loop produces one buffer per (storage slot, field)
pair. -/
lemma dsAllocated_length (numStorages : ℕ) :
    ((List.range numStorages).flatMap fun m =>
      storageKeys.map fun k => (k, m)).length =
      numStorages * storageKeys.length := by
  simp [List.length_flatMap]
  induction numStorages with
  | zero => simp
  | succ n ih =>
    rw [List.range_succ]
    simp_all [Nat.succ_mul]

/-- C10 counterexample.  The claim asserts that for `"Discrete"` and
`"Box"` the constructor never raises on the action-type branch.  But the
`"Box"` branch itself evaluates `action_shape[0]` (line 51): with the empty
`action_shape` it raises `IndexError` right there, and the constructor
fails — so the claim is false at `action_type = "Box"`,
`action_shape = ()`. -/
theorem dsInit_counterexample :
    actionTypeBranch "Box" [] = .error .indexError ∧
    distributedStorageInit "Box" [] 3 = .error .indexError := by
  exact ⟨rfl, rfl⟩

/-- C10 as amended.  `DistributedStorage.__init__` raises
`NotImplementedError` for every `action_type` other than `"Discrete"` and
`"Box"` — before allocating any shared-memory field buffer, since the check
(lines 48-53) precedes the `specs`/`storages` construction (lines 55-73),
and an `.error` result carries no configuration.  The `"Discrete"`
action-type branch never raises; the `"Box"` branch never raises
`NotImplementedError` but raises `IndexError` exactly when `action_shape`
is empty (its `action_shape[0]` read, line 51).  With a nonempty
`action_shape`, both accepted action types complete without raising and
allocate one buffer per field and storage slot. -/
theorem dsInit_action_type (actionType : String) (actionShape : List ℕ)
    (numStorages : ℕ) :
    (actionType ≠ "Discrete" → actionType ≠ "Box" →
      distributedStorageInit actionType actionShape numStorages =
        .error .notImplementedError) ∧
    (∃ d, actionTypeBranch "Discrete" actionShape = .ok d) ∧
    (actionShape = [] →
      actionTypeBranch "Box" actionShape = .error .indexError) ∧
    (actionShape ≠ [] → ∃ d, actionTypeBranch "Box" actionShape = .ok d) ∧
    (actionShape ≠ [] → actionType = "Discrete" ∨ actionType = "Box" →
      ∃ cfg, distributedStorageInit actionType actionShape numStorages =
        .ok cfg ∧ cfg.allocated.length = numStorages * storageKeys.length) := by
  refine ⟨?_, ⟨1, rfl⟩, ?_, ?_, ?_⟩
  · intro h1 h2
    unfold distributedStorageInit actionTypeBranch
    split
    · simp_all
    · simp_all
    · rfl
  · intro h
    subst h
    rfl
  · intro h
    match actionShape, h with
    | d :: _, _ => exact ⟨d, rfl⟩
  · intro h htype
    match actionShape, h with
    | d :: tl, _ =>
      rcases htype with h | h <;> subst h
      · exact ⟨_, rfl, dsAllocated_length numStorages⟩
      · exact ⟨_, rfl, dsAllocated_length numStorages⟩

/-- Closed witness for the amended C10: `"MultiDiscrete"` is refused with
`NotImplementedError`, while `"Discrete"` and `"Box"` with the nonempty
`action_shape = (4,)` are accepted with all `3 * 10` field buffers
allocated. -/
theorem dsInit_action_type_witness :
    distributedStorageInit "MultiDiscrete" [4] 3 = .error .notImplementedError ∧
    (∃ cfg, distributedStorageInit "Discrete" [4] 3 = .ok cfg ∧
      cfg.allocated.length = 3 * storageKeys.length) ∧
    (∃ cfg, distributedStorageInit "Box" [4] 3 = .ok cfg ∧
      cfg.allocated.length = 3 * storageKeys.length) :=
  ⟨(dsInit_action_type "MultiDiscrete" [4] 3).1 (by decide) (by decide),
   (dsInit_action_type "Discrete" [4] 3).2.2.2.2 (by decide) (Or.inl rfl),
   (dsInit_action_type "Box" [4] 3).2.2.2.2 (by decide) (Or.inr rfl)⟩

/-! ### C2: sample releases, copies the batch, but gathers states lazily -/

/-- C2 counterexample.  The claim also asserts the gathered recurrent-state
snapshots are fully materialized, i.e. that overwriting
`init_actor_state_storages` at the claimed indices after `sample` returns
leaves the returned initial states unchanged.  But `init_actor_states` is a
generator expression whose `torch.cat` runs only when the consumer iterates
it, reading the shared tensors at that moment: with claimed index `0`,
state heap `0 ↦ 0` at call time and the worker overwrite `0 ↦ 1` before
consumption, the consumed initial states are `[1]`, not the snapshot
`[0]`. -/
theorem sample_counterexample :
    ¬ ∀ (heapAtConsumption : ℕ → ℕ),
      (DistributedStorage.sample [0] (fun _ => (0 : ℕ)) (fun _ => (0 : ℕ))).initStates
          heapAtConsumption =
        (DistributedStorage.sample [0] (fun _ => (0 : ℕ)) (fun _ => (0 : ℕ))).initStates
          (fun _ => (0 : ℕ)) := by
  intro h
  have := h (fun _ => 1)
  simp [DistributedStorage.sample] at this

/-- C2 as amended.  `sample` re-enqueues every claimed index onto Free
before returning (`freePuts = indices`), and the returned batch is a fully
materialized copy (`torch.stack`, line 102): consuming it under any later
heap yields the values the pool held at sample time, unaffected by
subsequent overwrites.  The gathered initial states, by contrast, are
consumed lazily and read whatever `init_actor_state_storages` holds at
consumption time. -/
theorem sample_release_and_copy (indices : List ℕ) (storages : ℕ → α)
    (initStores : ℕ → β) :
    (DistributedStorage.sample indices storages initStores).freePuts = indices ∧
    (∀ heapAtConsumption : ℕ → α,
      (DistributedStorage.sample indices storages initStores).batch
        heapAtConsumption = indices.map storages) ∧
    (∀ heapAtConsumption : ℕ → β,
      (DistributedStorage.sample indices storages initStores).initStates
        heapAtConsumption = indices.map heapAtConsumption) := by
  refine ⟨rfl, fun _ => rfl, fun _ => rfl⟩

/-! ### C3: overlap correctness of the actor worker -/

/-- The rollout loop never writes timestep 0: the write positions
`numSteps - t` for the fuels `t + 1 ≤ numSteps` that occur are all ≥ 1. -/
lemma fillGo_fst_zero (stepFn : W → W) (numSteps idx : ℕ) :
    ∀ (t : ℕ) (p : Pool W) (w : W), t ≤ numSteps →
      (fillGo stepFn numSteps idx p w t).1 idx 0 = p idx 0 := by
  intro t
  induction t with
  | zero => intro p w _; rfl
  | succ t ih =>
    intro p w ht
    unfold fillGo
    rw [ih _ _ (Nat.le_of_succ_le ht)]
    have : numSteps - t ≠ 0 := by omega
    simp [Pool.write, this.symm]

/-- After the rollout loop runs `t ≥ 1` of its remaining steps, the record at
timestep `numSteps` of the claimed slot is the final register — the loop's
last iteration (fuel 1) writes it there and returns it. -/
lemma fillGo_fst_last (stepFn : W → W) (numSteps idx : ℕ) :
    ∀ (t : ℕ) (p : Pool W) (w : W), 0 < t → t ≤ numSteps →
      (fillGo stepFn numSteps idx p w t).1 idx numSteps =
        (fillGo stepFn numSteps idx p w t).2 := by
  intro t
  induction t with
  | zero => intro p w h; omega
  | succ t ih =>
    intro p w _ ht
    match t, ih with
    | 0, _ =>
      show (fillGo stepFn numSteps idx (Pool.write p idx (numSteps - 0) _) _ 0).1
          idx numSteps = _
      simp [fillGo, Pool.write]
    | t' + 1, ih =>
      unfold fillGo
      exact ih _ _ (Nat.succ_pos t') (Nat.le_of_succ_le ht)

/-- `fillSlot` leaves the retained register at timestep 0 of the claimed
slot. -/
lemma fillSlot_fst_zero (stepFn : W → W) (numSteps : ℕ) (p : Pool W) (w : W)
    (idx : ℕ) : (fillSlot stepFn numSteps p w idx).1 idx 0 = w := by
  unfold fillSlot
  rw [fillGo_fst_zero stepFn numSteps idx numSteps _ w le_rfl]
  simp [Pool.write]

/-- With `numSteps ≥ 1`, timestep `numSteps` of the slot a `fillSlot` just
filled holds exactly the register the worker retains for its next
iteration. -/
lemma fillSlot_fst_last (stepFn : W → W) (numSteps : ℕ) (p : Pool W) (w : W)
    (idx : ℕ) (hT : 0 < numSteps) :
    (fillSlot stepFn numSteps p w idx).1 idx numSteps =
      (fillSlot stepFn numSteps p w idx).2 := by
  unfold fillSlot
  exact fillGo_fst_last stepFn numSteps idx numSteps _ w hT le_rfl

/-- The per-timestep record the worker writes: the `env_output` fields the
claim tracks (`terminated`, `truncated`, `obs`), bundled with the remaining
`env_output`/`actor_output` fields and the recurrent state, of arbitrary
type `V`. -/
structure WorkerRec (V : Type) where
  terminated : ℚ
  truncated : ℚ
  obs : ℚ
  rest : V

/-- C3.  Overlap correctness: when a worker's two successive claims land on
the same slot `idx`, timestep 0 written by the second `fillSlot` equals
timestep `numSteps` written by the first, for the fields `terminated`,
`truncated` and `obs` — the worker writes the retained previous output frame
into timestep 0 before starting the new rollout, and that frame is exactly
what the first fill wrote at its last timestep. -/
theorem actor_overlap (V : Type) (stepFn : WorkerRec V → WorkerRec V)
    (numSteps : ℕ) (p : Pool (WorkerRec V)) (w : WorkerRec V) (idx : ℕ)
    (hT : 0 < numSteps) :
    (((fillSlot stepFn numSteps (fillSlot stepFn numSteps p w idx).1
        (fillSlot stepFn numSteps p w idx).2 idx).1 idx 0).terminated =
      ((fillSlot stepFn numSteps p w idx).1 idx numSteps).terminated) ∧
    (((fillSlot stepFn numSteps (fillSlot stepFn numSteps p w idx).1
        (fillSlot stepFn numSteps p w idx).2 idx).1 idx 0).truncated =
      ((fillSlot stepFn numSteps p w idx).1 idx numSteps).truncated) ∧
    (((fillSlot stepFn numSteps (fillSlot stepFn numSteps p w idx).1
        (fillSlot stepFn numSteps p w idx).2 idx).1 idx 0).obs =
      ((fillSlot stepFn numSteps p w idx).1 idx numSteps).obs) := by
  rw [fillSlot_fst_zero stepFn numSteps (fillSlot stepFn numSteps p w idx).1
    (fillSlot stepFn numSteps p w idx).2 idx,
    fillSlot_fst_last stepFn numSteps p w idx hT]
  exact ⟨rfl, rfl, rfl⟩

/-- A concrete pool and register for the C3 witness. -/
def witnessPool : Pool (WorkerRec Unit) := fun _ _ => ⟨0, 0, 0, ()⟩

def witnessRec : WorkerRec Unit := ⟨1, 2, 3, ()⟩

/-- Closed witness for C3: one rollout step, identity dynamics, slot 0
claimed twice in a row. -/
theorem actor_overlap_witness :
    (((fillSlot id 1 (fillSlot id 1 witnessPool witnessRec 0).1
        (fillSlot id 1 witnessPool witnessRec 0).2 0).1 0 0).terminated =
      ((fillSlot id 1 witnessPool witnessRec 0).1 0 1).terminated) ∧
    (((fillSlot id 1 (fillSlot id 1 witnessPool witnessRec 0).1
        (fillSlot id 1 witnessPool witnessRec 0).2 0).1 0 0).truncated =
      ((fillSlot id 1 witnessPool witnessRec 0).1 0 1).truncated) ∧
    (((fillSlot id 1 (fillSlot id 1 witnessPool witnessRec 0).1
        (fillSlot id 1 witnessPool witnessRec 0).2 0).1 0 0).obs =
      ((fillSlot id 1 witnessPool witnessRec 0).1 0 1).obs) :=
  actor_overlap Unit id 1 witnessPool witnessRec 0 (by decide)

/-! ### C6: episode boundary accounting -/

/-- C6.  When the underlying environment step reports `terminated` or
`truncated`, the frame `Environment.step` returns carries the pre-reset
cumulative totals — `episode_return = r + reward` and `episode_step = n + 1`
(the adapter increments in place and the returned dict captures those
tensors before the attributes are rebound) — while the adapter's internal
counters are zero immediately after the call. -/
theorem env_step_boundary (s : EpiState) (reward : ℚ)
    (terminated truncated : Bool) (h : (terminated || truncated) = true) :
    (Environment.step s reward terminated truncated).1.episodeReturn =
      s.episodeReturn + reward ∧
    (Environment.step s reward terminated truncated).1.episodeStep =
      s.episodeStep + 1 ∧
    (Environment.step s reward terminated truncated).2 = ⟨0, 0⟩ := by
  simp [Environment.step, h]

/-- Closed witness for C6: cumulative return 5 and step count 3, a terminal
step with reward 2. -/
theorem env_step_boundary_witness :
    (Environment.step ⟨5, 3⟩ 2 true false).1.episodeReturn = 5 + 2 ∧
    (Environment.step ⟨5, 3⟩ 2 true false).1.episodeStep = 3 + 1 ∧
    (Environment.step ⟨5, 3⟩ 2 true false).2 = ⟨0, 0⟩ :=
  env_step_boundary ⟨5, 3⟩ 2 true false (by decide)

/-! ### C8: sentinel shutdown -/

/-- C8.  Sentinel shutdown: whatever `free_queue.get()` would return after
the sentinel, the worker's trace is unchanged — after dequeuing `None` the
worker breaks out of its loop and performs no further `free_queue.get`, no
`full_queue.put` and no storage write.  (If an earlier sentinel occurs inside
`pre`, both traces already end there.) -/
theorem sentinel_shutdown (pre post : List (Option ℕ)) :
    actTrace (pre ++ none :: post) = actTrace (pre ++ [none]) := by
  induction pre with
  | nil => rfl
  | cons x rest ih =>
    cases x with
    | none => rfl
    | some i => simpa [actTrace] using ih

/-! ### C1: index conservation -/

/-- Every protocol step preserves, for every index `j`, the number of its
occurrences in Free ∪ Full ∪ held: a `get` moves one occurrence from a queue
into the held multiset, a `put` moves one back, and sentinel traffic touches
no index. -/
lemma qStep_idxCount {s s' : QState} (h : QStep s s') (j : ℕ) :
    idxCount s' j = idxCount s j := by
  cases h with
  | workerGet i rest full held =>
    simp only [idxCount, List.filterMap_cons, id, List.count_cons,
      Multiset.count_cons]
    split_ifs <;> simp_all <;> omega
  | workerSentinel rest full held =>
    simp [idxCount]
  | workerPublish i free full held hmem =>
    have hcnt : 1 ≤ held.count i := Multiset.one_le_count_iff_mem.mpr hmem
    simp only [idxCount, List.count_append]
    by_cases hji : j = i
    · subst hji
      rw [Multiset.count_erase_self]
      simp [List.count_singleton]
      omega
    · rw [Multiset.count_erase_of_ne hji]
      have : [i].count j = 0 := by
        simp [List.count_singleton]
        omega
      omega
  | learnerGet i free rest held =>
    simp only [idxCount, List.count_cons, Multiset.count_cons]
    split_ifs <;> simp_all <;> omega
  | learnerRelease i free full held hmem =>
    have hcnt : 1 ≤ held.count i := Multiset.one_le_count_iff_mem.mpr hmem
    simp only [idxCount, List.filterMap_append, List.count_append]
    by_cases hji : j = i
    · subst hji
      rw [Multiset.count_erase_self]
      simp [List.count_singleton]
      omega
    · rw [Multiset.count_erase_of_ne hji]
      have : ([some i].filterMap id).count j = 0 := by
        simp [List.count_singleton]
        omega
      omega
  | sentinelPut free full held =>
    simp [idxCount, List.filterMap_append]

/-- C1.  Index conservation: from the initial state (every slot index
`0..S-1` enqueued once onto Free), in every state reachable by any
interleaving of worker steps (`Free.get`, `Full.put`, sentinel handling) and
learner steps (`Full.get`, `Free.put`), each index below `S` occurs exactly
once — and each other value occurs not at all — in the union of the Free
queue, the Full queue and the indices currently held by a worker or
learner.  No index is ever duplicated or lost. -/
theorem index_conservation (S : ℕ) (s : QState) (h : QReachable S s) (i : ℕ) :
    idxCount s i = if i < S then 1 else 0 := by
  induction h with
  | init =>
    simp only [idxCount, initQState, List.filterMap_map]
    have : (List.range S).filterMap (id ∘ some) = List.range S := by
      simp [Function.comp]
    rw [this]
    simp only [Multiset.count_zero, List.count_nil]
    by_cases hi : i < S
    · rw [if_pos hi,
        List.count_eq_one_of_mem (List.nodup_range S) (List.mem_range.mpr hi)]
    · rw [if_neg hi,
        List.count_eq_zero_of_not_mem (fun hc => hi (List.mem_range.mp hc))]
  | step _ hstep ih =>
    rw [qStep_idxCount hstep]
    exact ih

/-- Closed witness for C1: with `S = 2`, after the worker dequeues index 0
(so it is in flight) the state `⟨[some 1], [], {0}⟩` is reachable and both
indices are still counted exactly once, while `2` does not occur. -/
theorem index_conservation_witness :
    idxCount ⟨[some 1], [], {0}⟩ 0 = 1 ∧
    idxCount ⟨[some 1], [], {0}⟩ 1 = 1 ∧
    idxCount ⟨[some 1], [], {0}⟩ 2 = 0 := by
  have hreach : QReachable 2 ⟨[some 1], [], {0}⟩ := by
    have h0 : QReachable 2 (initQState 2) := QReachable.init
    have hstep : QStep (initQState 2) ⟨[some 1], [], {0}⟩ := by
      have : initQState 2 = ⟨some 0 :: [some 1], [], 0⟩ := by
        simp [initQState, List.range_succ]
      rw [this]
      exact QStep.workerGet 0 [some 1] [] 0
    exact QReachable.step h0 hstep
  refine ⟨?_, ?_, ?_⟩
  · have := index_conservation 2 _ hreach 0
    simpa using this
  · have := index_conservation 2 _ hreach 1
    simpa using this
  · have := index_conservation 2 _ hreach 2
    simpa using this

end Hsuanwu
